import Mathlib

/-!
# simRestore: the simulation output log (`src/main_functions.h`)

A shallow embedding of `output_entry` and `output_data`, followed by the
properties proved about them.

Modelling conventions.

* `double` is `Float`; the code only stores and copies doubles, it never
  computes with them.
* `int` is `Int` and `size_t` is `Nat`.  Arguments arrive already typed, so no
  conversion happens on the way in.  The one integer conversion in the file is
  in `size()`, which returns the `size_t` element count as an `int`; it is
  modelled by `size_t_to_int` (`int` 32 bits wide, `size_t` wider, two's
  complement wrap-around).
* `std::array<double, 3>` is `Fin 3 → Float`.
* `std::vector<output_entry>` is `List output_entry`; memory is unbounded, so
  `emplace_back` never throws.
* `std::vector::operator[]` past the end is undefined behaviour.  The indexed
  read therefore returns `Except Fault output_entry`; `Fault.UndefinedBehaviour`
  marks the unchecked read, `Fault.OutOfRange` is the caught bounds failure,
  which nothing in the source raises.
-/

namespace SimRestore

/-- The struct `output_entry` (lines 19-28). -/
structure output_entry where
  replicate : Int
  t : Nat
  frequency : Float
  frequency_males : Float
  frequency_females : Float
  pop_size : Nat
  num_males : Nat
  num_females : Nat

/-- The eight-argument constructor (lines 32-42): a member initialiser list,
one member per argument. -/
def output_entry.ctor (r : Int) (time : Nat) (f f_m f_f : Float)
    (n n_m n_f : Nat) : output_entry :=
  { replicate := r
    t := time
    frequency := f
    frequency_males := f_m
    frequency_females := f_f
    pop_size := n
    num_males := n_m
    num_females := n_f }

/-- The copy constructor (lines 44-53): eight member-wise assignments from
`other`. -/
def output_entry.copy (other : output_entry) : output_entry :=
  { replicate := other.replicate
    t := other.t
    frequency := other.frequency
    frequency_males := other.frequency_males
    frequency_females := other.frequency_females
    pop_size := other.pop_size
    num_males := other.num_males
    num_females := other.num_females }

/-- The struct `output_data` (lines 56-76): its only member is the private
vector `data_`. -/
structure output_data where
  data_ : List output_entry

/-- The constructor `output_data() {}`: the vector starts empty. -/
def output_data.fresh : output_data :=
  { data_ := [] }

/-- The member `add_slice` (lines 59-67): builds the temporary
`output_entry(replicate, t, f[0], f[1], f[2], n, n_m, n_f)` and
`emplace_back`s it, which copy-constructs the new last element from the
temporary. -/
def output_data.add_slice (d : output_data) (replicate : Int) (t : Nat)
    (f : Fin 3 → Float) (n n_m n_f : Nat) : output_data :=
  { data_ := d.data_ ++
      [output_entry.copy (output_entry.ctor replicate t (f 0) (f 1) (f 2) n n_m n_f)] }

/-- The member `data()` (line 69): a const reference to the vector. -/
def output_data.data (d : output_data) : List output_entry :=
  d.data_

/-- Conversion of a `size_t` value to `int`: the value modulo `2^32`, taken in
the range `[-2^31, 2^31)`. -/
def size_t_to_int (n : Nat) : Int :=
  (((n + 2147483648) % 4294967296 : Nat) : Int) - 2147483648

/-- The member `size()` (line 70): `return data_.size();` with return type
`int`. -/
def output_data.size (d : output_data) : Int :=
  size_t_to_int d.data_.length

/-- The two ways an indexed read can fail to yield a record. -/
inductive Fault where
  | OutOfRange
  | UndefinedBehaviour
  deriving DecidableEq, Repr

/-- The member `operator[]` (line 72): `return data_[i];`, by value, so the
result is a copy of the element.  There is no bounds check: a read at
`i >= data_.size()` is undefined behaviour. -/
def output_data.operator_index (d : output_data) (i : Nat) :
    Except Fault output_entry :=
  if h : i < d.data_.length then
    Except.ok (output_entry.copy (d.data_.get ⟨i, h⟩))
  else
    Except.error Fault.UndefinedBehaviour

/-- The arguments of one `add_slice` call. -/
structure SliceArgs where
  replicate : Int
  t : Nat
  f : Fin 3 → Float
  n : Nat
  n_m : Nat
  n_f : Nat

/-- One `add_slice` call with the given arguments. -/
def output_data.add_call (d : output_data) (a : SliceArgs) : output_data :=
  d.add_slice a.replicate a.t a.f a.n a.n_m a.n_f

/-- A sequence of `add_slice` calls, in list order. -/
def output_data.add_calls (d : output_data) (calls : List SliceArgs) : output_data :=
  calls.foldl output_data.add_call d

/-- The record that holds the arguments of a call, field by field. -/
def SliceArgs.record (a : SliceArgs) : output_entry :=
  { replicate := a.replicate
    t := a.t
    frequency := a.f 0
    frequency_males := a.f 1
    frequency_females := a.f 2
    pop_size := a.n
    num_males := a.n_m
    num_females := a.n_f }

/-! ## The public operations as a state machine -/

/-- The public operations of `output_data`, with their arguments. -/
inductive Op where
  | add_slice (replicate : Int) (t : Nat) (f : Fin 3 → Float) (n n_m n_f : Nat)
  | data
  | size
  | index (i : Nat)

/-- What a public operation returns. -/
inductive Ret where
  | unit
  | view (v : List output_entry)
  | count (c : Int)
  | entry (e : output_entry)

/-- One public operation on a log: the value returned and the log afterwards.
`add_slice` returns nothing and replaces the log; `data()` and `size()` are
`const` members, and the body of `operator[]` only reads `data_`, so these
three hand the log back as it was.  An `operator[]` past the end has no defined
outcome. -/
def output_data.call (d : output_data) : Op → Except Fault (Ret × output_data)
  | Op.add_slice r t f n n_m n_f => Except.ok (Ret.unit, d.add_slice r t f n n_m n_f)
  | Op.data => Except.ok (Ret.view d.data, d)
  | Op.size => Except.ok (Ret.count d.size, d)
  | Op.index i =>
    match d.operator_index i with
    | Except.ok e => Except.ok (Ret.entry e, d)
    | Except.error x => Except.error x

/-- A finite sequence of public operations, carried out in order; it stops at
the first operation without a defined outcome. -/
def output_data.run (d : output_data) : List Op → Except Fault output_data
  | [] => Except.ok d
  | op :: ops =>
    match d.call op with
    | Except.ok (_, d') => d'.run ops
    | Except.error x => Except.error x

/-- A log that some sequence of public operations produces from a fresh one. -/
def Reachable (d : output_data) : Prop :=
  ∃ ops : List Op, output_data.fresh.run ops = Except.ok d

/-- The `add_slice` operation with the arguments of `a`. -/
def SliceArgs.op (a : SliceArgs) : Op :=
  Op.add_slice a.replicate a.t a.f a.n a.n_m a.n_f

/-- What the caller holds after changing by `g` the record it was given; any
other returned value is left as it is. -/
def caller_change (g : output_entry → output_entry) : Ret → Ret
  | Ret.entry e => Ret.entry (g e)
  | r => r

/-- A caller reads index `i`, changes by `g` the record it was given, and
reads index `i` again: what the caller then holds from the first read, what
the second read returns, and the log at the end. -/
def read_modify_read (d : output_data) (i : Nat) (g : output_entry → output_entry) :
    Except Fault (Ret × Ret × output_data) :=
  match d.call (Op.index i) with
  | Except.ok (r1, d1) =>
    match d1.call (Op.index i) with
    | Except.ok (r2, d2) => Except.ok (caller_change g r1, r2, d2)
    | Except.error x => Except.error x
  | Except.error x => Except.error x

/-! ## Concrete inputs used below -/

/-- The call of the scenario: `add_slice(3, 10, {0.5, 0.6, 0.4}, 100, 52, 48)`. -/
def scenario_call : SliceArgs :=
  { replicate := 3, t := 10, f := ![0.5, 0.6, 0.4], n := 100, n_m := 52, n_f := 48 }

/-- A call with the given replicate and time and fixed other arguments. -/
def call_at (replicate : Int) (t : Nat) : SliceArgs :=
  { replicate := replicate, t := t, f := ![0.5, 0.5, 0.5], n := 2, n_m := 1, n_f := 1 }

/-- A call whose arguments break every expectation on the producer: a negative
replicate id, frequencies outside `[0, 1]`, sex counts that do not add up. -/
def invalid_call : SliceArgs :=
  { replicate := -7, t := 0, f := ![-1.5, 2.0, 7.25], n := 10, n_m := 9, n_f := 8 }

/-- The log after `2^31 - 1` scenario calls on a fresh log. -/
def full_log : output_data :=
  output_data.fresh.add_calls (List.replicate 2147483647 scenario_call)

/-! ## Basic facts -/

theorem data_eq (d : output_data) : d.data = d.data_ := rfl

theorem copy_eq (e : output_entry) : output_entry.copy e = e := by
  cases e
  rfl

theorem add_call_data (d : output_data) (a : SliceArgs) :
    (d.add_call a).data_ = d.data_ ++ [a.record] := by
  simp [output_data.add_call, output_data.add_slice, copy_eq, output_entry.ctor,
    SliceArgs.record]

theorem add_calls_data (calls : List SliceArgs) (d : output_data) :
    (d.add_calls calls).data_ = d.data_ ++ calls.map SliceArgs.record := by
  induction calls generalizing d with
  | nil => simp [output_data.add_calls]
  | cons a rest ih =>
    have h := ih (d.add_call a)
    simp only [output_data.add_calls, List.foldl_cons] at h ⊢
    rw [h, add_call_data]
    simp

theorem add_calls_length (calls : List SliceArgs) (d : output_data) :
    (d.add_calls calls).data_.length = d.data_.length + calls.length := by
  simp [add_calls_data]

theorem size_t_to_int_small (n : Nat) (h : n < 2147483648) :
    size_t_to_int n = (n : Int) := by
  unfold size_t_to_int
  rw [Nat.mod_eq_of_lt (by omega)]
  push_cast
  ring

theorem size_t_to_int_le (n : Nat) : size_t_to_int n ≤ (n : Int) := by
  unfold size_t_to_int
  have h : (n + 2147483648) % 4294967296 ≤ n + 2147483648 := Nat.mod_le _ _
  omega

theorem operator_index_lt (d : output_data) (i : Nat) (h : i < d.data_.length) :
    d.operator_index i = Except.ok (d.data_.get ⟨i, h⟩) := by
  simp [output_data.operator_index, h, copy_eq]

theorem operator_index_ge (d : output_data) (i : Nat) (h : d.data_.length ≤ i) :
    d.operator_index i = Except.error Fault.UndefinedBehaviour := by
  simp [output_data.operator_index, Nat.not_lt.mpr h]

theorem add_calls_fresh_size (calls : List SliceArgs) :
    (output_data.fresh.add_calls calls).size = size_t_to_int calls.length := by
  simp only [output_data.size, add_calls_length, output_data.fresh, List.length_nil,
    Nat.zero_add]

theorem add_slice_data (d : output_data) (r : Int) (t : Nat) (f : Fin 3 → Float)
    (n n_m n_f : Nat) :
    (d.add_slice r t f n n_m n_f).data_ =
      d.data_ ++ [output_entry.ctor r t (f 0) (f 1) (f 2) n n_m n_f] := by
  simp only [output_data.add_slice, copy_eq]

theorem full_log_length : full_log.data_.length = 2147483647 := by
  rw [full_log, add_calls_length, List.length_replicate]
  rfl

theorem call_index_lt (d : output_data) (i : Nat) (h : i < d.data_.length) :
    d.call (Op.index i) = Except.ok (Ret.entry (d.data_.get ⟨i, h⟩), d) := by
  simp only [output_data.call, operator_index_lt d i h]

theorem call_index_ge (d : output_data) (i : Nat) (h : d.data_.length ≤ i) (x : Ret × output_data) :
    d.call (Op.index i) ≠ Except.ok x := by
  simp only [output_data.call, operator_index_ge d i h]
  intro hc
  cases hc

theorem call_keeps_stored (d : output_data) (op : Op) (r : Ret) (d' : output_data)
    (h : d.call op = Except.ok (r, d')) : d.data_ <+: d'.data_ := by
  cases op with
  | add_slice r0 t f n n_m n_f =>
    simp only [output_data.call, Except.ok.injEq, Prod.mk.injEq] at h
    rw [← h.2, add_slice_data]
    exact List.prefix_append _ _
  | data =>
    simp only [output_data.call, Except.ok.injEq, Prod.mk.injEq] at h
    rw [← h.2]
  | size =>
    simp only [output_data.call, Except.ok.injEq, Prod.mk.injEq] at h
    rw [← h.2]
  | index i =>
    by_cases hi : i < d.data_.length
    · rw [call_index_lt d i hi] at h
      simp only [Except.ok.injEq, Prod.mk.injEq] at h
      rw [← h.2]
    · exact absurd h (call_index_ge d i (Nat.le_of_not_lt hi) _)

theorem run_keeps_stored (ops : List Op) (d d' : output_data)
    (h : d.run ops = Except.ok d') : d.data_ <+: d'.data_ := by
  induction ops generalizing d with
  | nil =>
    simp only [output_data.run, Except.ok.injEq] at h
    rw [h]
  | cons op rest ih =>
    simp only [output_data.run] at h
    cases hc : d.call op with
    | error x =>
      rw [hc] at h
      cases h
    | ok p =>
      obtain ⟨r, d1⟩ := p
      rw [hc] at h
      exact (call_keeps_stored d op r d1 hc).trans (ih d1 h)

theorem call_defined (d : output_data) (op : Op) :
    (∃ r d', d.call op = Except.ok (r, d')) ∨
      ∃ i, op = Op.index i ∧ d.data_.length ≤ i := by
  cases op with
  | add_slice r0 t f n n_m n_f => exact Or.inl ⟨_, _, rfl⟩
  | data => exact Or.inl ⟨_, _, rfl⟩
  | size => exact Or.inl ⟨_, _, rfl⟩
  | index i =>
    by_cases hi : i < d.data_.length
    · exact Or.inl ⟨_, _, call_index_lt d i hi⟩
    · exact Or.inr ⟨i, rfl, Nat.le_of_not_lt hi⟩

theorem run_add_calls (calls : List SliceArgs) (d : output_data) :
    d.run (calls.map SliceArgs.op) = Except.ok (d.add_calls calls) := by
  induction calls generalizing d with
  | nil => rfl
  | cons a rest ih =>
    simp only [List.map_cons, output_data.run, SliceArgs.op, output_data.call]
    exact ih (d.add_call a)

theorem size_mono_of_small (m k : Nat) (hmk : m ≤ k) (hk : k < 2147483648) :
    size_t_to_int m ≤ size_t_to_int k := by
  rw [size_t_to_int_small m (by omega), size_t_to_int_small k hk]
  exact_mod_cast hmk

theorem full_log_size : full_log.size = 2147483647 := by
  rw [output_data.size, full_log_length]
  unfold size_t_to_int
  norm_num

theorem full_log_add_length (a : SliceArgs) :
    (full_log.add_call a).data_.length = 2147483648 := by
  rw [add_call_data, List.length_append, full_log_length, List.length_singleton]

theorem full_log_add_size (a : SliceArgs) : (full_log.add_call a).size = -2147483648 := by
  rw [output_data.size, add_call_data, List.length_append, full_log_length]
  unfold size_t_to_int
  norm_num

/-! ## C1: round trip of append and indexed read -/

/-- C1: after any sequence of `add_slice` calls on a fresh log, the indexed
read at `k`, for `k` below the number of calls, succeeds and returns a record
whose eight fields are the arguments of the `k`-th call: `replicate`, `t`,
`f[0]`, `f[1]`, `f[2]`, `n`, `n_m`, `n_f`, in that order. -/
theorem C1_round_trip (calls : List SliceArgs) (k : Nat) (h : k < calls.length) :
    ∃ e : output_entry,
      (output_data.fresh.add_calls calls).operator_index k = Except.ok e ∧
      e.replicate = (calls.get ⟨k, h⟩).replicate ∧
      e.t = (calls.get ⟨k, h⟩).t ∧
      e.frequency = (calls.get ⟨k, h⟩).f 0 ∧
      e.frequency_males = (calls.get ⟨k, h⟩).f 1 ∧
      e.frequency_females = (calls.get ⟨k, h⟩).f 2 ∧
      e.pop_size = (calls.get ⟨k, h⟩).n ∧
      e.num_males = (calls.get ⟨k, h⟩).n_m ∧
      e.num_females = (calls.get ⟨k, h⟩).n_f := by
  have hlen : k < (output_data.fresh.add_calls calls).data_.length := by
    rw [add_calls_length]
    simpa [output_data.fresh] using h
  refine ⟨(calls.get ⟨k, h⟩).record, ?_, rfl, rfl, rfl, rfl, rfl, rfl, rfl, rfl⟩
  rw [operator_index_lt _ _ hlen]
  congr 1
  simp [add_calls_data, output_data.fresh]

/-- C1, the scenario: `add_slice(3, 10, {0.5, 0.6, 0.4}, 100, 52, 48)` on a
fresh log, then the read at index 0 returns `(3, 10, 0.5, 0.6, 0.4, 100, 52, 48)`. -/
theorem C1_round_trip_witness :
    (output_data.fresh.add_slice 3 10 ![0.5, 0.6, 0.4] 100 52 48).operator_index 0 =
      Except.ok
        { replicate := 3, t := 10, frequency := 0.5, frequency_males := 0.6,
          frequency_females := 0.4, pop_size := 100, num_males := 52,
          num_females := 48 } := by
  obtain ⟨e, he, h1, h2, h3, h4, h5, h6, h7, h8⟩ :=
    C1_round_trip [scenario_call] 0 (by decide)
  have hd : output_data.fresh.add_calls [scenario_call] =
      output_data.fresh.add_slice 3 10 ![0.5, 0.6, 0.4] 100 52 48 := rfl
  rw [hd] at he
  rw [he]
  cases e
  simp only [List.get_eq_getElem, List.getElem_cons_zero, scenario_call] at h1 h2 h3 h4 h5 h6 h7 h8
  simp only [Matrix.cons_val_zero, Matrix.cons_val_one, Matrix.head_cons, Matrix.cons_val_two,
    Matrix.tail_cons] at h3 h4 h5
  subst h1 h2 h3 h4 h5 h6 h7 h8
  rfl

/-! ## C2: size counts appends -/

/-- C2, as stated, fails: after `2^31` `add_slice` calls on a fresh log,
`size()` returns `-2^31`, not the number of calls. -/
theorem C2_size_counts_appends_counterexample :
    (output_data.fresh.add_calls (List.replicate 2147483648 scenario_call)).size
        = -2147483648 ∧
      (output_data.fresh.add_calls (List.replicate 2147483648 scenario_call)).size
        ≠ ((List.replicate 2147483648 scenario_call).length : Int) := by
  rw [add_calls_fresh_size, List.length_replicate]
  have h : size_t_to_int 2147483648 = -2147483648 := by
    unfold size_t_to_int
    norm_num
  rw [h]
  constructor
  · rfl
  · norm_num

/-- C2, amended: a fresh log has `size() == 0`, and after any sequence of fewer
than `2^31` `add_slice` calls on a fresh log, whatever the arguments, `size()`
is the number of calls. -/
theorem C2_size_counts_appends (calls : List SliceArgs)
    (h : calls.length < 2147483648) :
    output_data.fresh.size = 0 ∧
      (output_data.fresh.add_calls calls).size = (calls.length : Int) := by
  constructor
  · rfl
  · rw [add_calls_fresh_size, size_t_to_int_small _ h]

/-- C2, amended, on the three calls `(0,0)`, `(0,1)`, `(1,0)`: the size is 3. -/
theorem C2_size_counts_appends_witness :
    output_data.fresh.size = 0 ∧
      (output_data.fresh.add_calls [call_at 0 0, call_at 0 1, call_at 1 0]).size = 3 :=
  C2_size_counts_appends [call_at 0 0, call_at 0 1, call_at 1 0] (by decide)

/-! ## C3: postcondition of a single append -/

/-- C3, as stated, fails: on the log of `2^31 - 1` records `size()` is
`2^31 - 1`, and after one more `add_slice` it is `-2^31`, not one more. -/
theorem C3_append_postcondition_counterexample :
    full_log.size = 2147483647 ∧
      (full_log.add_slice 3 10 ![0.5, 0.6, 0.4] 100 52 48).size = -2147483648 ∧
      (full_log.add_slice 3 10 ![0.5, 0.6, 0.4] 100 52 48).size ≠ full_log.size + 1 := by
  have h1 : full_log.size = 2147483647 := by
    rw [output_data.size, full_log_length]
    unfold size_t_to_int
    norm_num
  have h2 : (full_log.add_slice 3 10 ![0.5, 0.6, 0.4] 100 52 48).size = -2147483648 := by
    rw [output_data.size, add_slice_data, List.length_append, full_log_length]
    unfold size_t_to_int
    norm_num
  refine ⟨h1, h2, ?_⟩
  rw [h1, h2]
  norm_num

/-- C3, amended: for every log and every argument tuple, the stored sequence
after `add_slice` is the old sequence followed by the one new record; so the
number of stored records is one more than before, the new record is read at the
index that was the old number of records, and every read below that index
returns what it returned before the call.  The value of `size()` is one more
than before when the log held fewer than `2^31 - 1` records. -/
theorem C3_append_postcondition (d : output_data) (r : Int) (t : Nat)
    (f : Fin 3 → Float) (n n_m n_f : Nat) :
    (d.add_slice r t f n n_m n_f).data =
        d.data ++ [output_entry.ctor r t (f 0) (f 1) (f 2) n n_m n_f] ∧
      (d.add_slice r t f n n_m n_f).data.length = d.data.length + 1 ∧
      (d.add_slice r t f n n_m n_f).operator_index d.data.length =
        Except.ok (output_entry.ctor r t (f 0) (f 1) (f 2) n n_m n_f) ∧
      (∀ i : Nat, i < d.data.length →
        (d.add_slice r t f n n_m n_f).operator_index i = d.operator_index i) ∧
      (d.data.length + 1 < 2147483648 →
        (d.add_slice r t f n n_m n_f).size = d.size + 1) := by
  have hdata := add_slice_data d r t f n n_m n_f
  have hlen : (d.add_slice r t f n n_m n_f).data_.length = d.data_.length + 1 := by
    rw [hdata]
    simp
  refine ⟨hdata, hlen, ?_, ?_, ?_⟩
  · have hlt : d.data_.length < (d.add_slice r t f n n_m n_f).data_.length := by
      rw [hlen]
      exact Nat.lt_succ_self _
    show (d.add_slice r t f n n_m n_f).operator_index d.data_.length = _
    rw [operator_index_lt _ _ hlt]
    congr 1
    simp [hdata]
  · intro i hi
    have hi0 : i < d.data_.length := hi
    have hlt : i < (d.add_slice r t f n n_m n_f).data_.length := by
      rw [hlen]
      exact Nat.lt_succ_of_lt hi0
    rw [operator_index_lt _ _ hlt, operator_index_lt _ _ hi0]
    congr 1
    simp [hdata, List.getElem_append_left, hi0]
  · intro hb
    have hb0 : d.data_.length + 1 < 2147483648 := hb
    rw [output_data.size, output_data.size, hlen, size_t_to_int_small _ hb0,
      size_t_to_int_small _ (by omega)]
    push_cast
    rfl

/-- C3, amended, on the log holding the scenario record: a second `add_slice`
gives the two records in order, and `size()` goes from 1 to 2. -/
theorem C3_append_postcondition_witness :
    ((output_data.fresh.add_call scenario_call).add_slice 0 1 ![0.5, 0.5, 0.5] 2 1 1).data =
        (output_data.fresh.add_call scenario_call).data ++
          [output_entry.ctor 0 1 0.5 0.5 0.5 2 1 1] ∧
      ((output_data.fresh.add_call scenario_call).add_slice 0 1 ![0.5, 0.5, 0.5] 2 1 1).size =
        (output_data.fresh.add_call scenario_call).size + 1 :=
  ⟨(C3_append_postcondition (output_data.fresh.add_call scenario_call) 0 1
      ![0.5, 0.5, 0.5] 2 1 1).1,
    (C3_append_postcondition (output_data.fresh.add_call scenario_call) 0 1
      ![0.5, 0.5, 0.5] 2 1 1).2.2.2.2 (by decide)⟩

/-! ## C4: order preservation in the view -/

/-- C4: after any list of `add_slice` calls on a fresh log, `data()` is the
list of the records of those calls, one per call and in call order, whatever
the field values: nothing is sorted and nothing is dropped. -/
theorem C4_order_preserved (calls : List SliceArgs) :
    (output_data.fresh.add_calls calls).data = calls.map SliceArgs.record := by
  show (output_data.fresh.add_calls calls).data_ = _
  rw [add_calls_data]
  rfl

/-- C4 on the calls with `(replicate, t)` = `(0,0)`, `(0,1)`, `(1,0)`: the view
shows these pairs in this order. -/
theorem C4_order_preserved_witness :
    (output_data.fresh.add_calls [call_at 0 0, call_at 0 1, call_at 1 0]).data.map
        (fun e => (e.replicate, e.t)) = [(0, 0), (0, 1), (1, 0)] := by
  rw [C4_order_preserved]
  rfl

/-! ## C5: the indexed read has no bounds check -/

/-- C5, as stated, fails: on an empty log, where `0 >= size()`, the read at
index 0 is the unchecked read (undefined behaviour), not the OutOfRange
condition; and on the log of `2^31` records, where `size()` is `-2^31` and so
`0 >= size()` again, the read at index 0 returns a record. -/
theorem C5_bounds_check_counterexample :
    ((0 : Int) ≥ output_data.fresh.size ∧
        output_data.fresh.operator_index 0 = Except.error Fault.UndefinedBehaviour ∧
        output_data.fresh.operator_index 0 ≠ Except.error Fault.OutOfRange) ∧
      ((0 : Int) ≥ (full_log.add_call scenario_call).size ∧
        ∃ e : output_entry,
          (full_log.add_call scenario_call).operator_index 0 = Except.ok e) := by
  refine ⟨⟨by decide, rfl, ?_⟩, ?_, ?_⟩
  · intro h
    cases h
  · rw [full_log_add_size]
    norm_num
  · have hlt : 0 < (full_log.add_call scenario_call).data_.length := by
      rw [full_log_add_length]
      norm_num
    exact ⟨_, operator_index_lt _ 0 hlt⟩

/-- C5, amended: for every log and every index at or beyond the number of
stored records, the indexed read is the unchecked read (undefined behaviour);
it is not the OutOfRange condition, and it returns no record. -/
theorem C5_unchecked_read (d : output_data) (i : Nat) (h : d.data.length ≤ i) :
    d.operator_index i = Except.error Fault.UndefinedBehaviour ∧
      d.operator_index i ≠ Except.error Fault.OutOfRange ∧
      ∀ e : output_entry, d.operator_index i ≠ Except.ok e := by
  have hu := operator_index_ge d i h
  rw [hu]
  refine ⟨rfl, ?_, ?_⟩
  · intro hc
    cases hc
  · intro e hc
    cases hc

/-- C5, amended, on the scenario: on the empty log the read at index 0 is the
unchecked read; after one `add_slice` the read at index 0 returns the record
and the read at index 1 is the unchecked read. -/
theorem C5_unchecked_read_witness :
    output_data.fresh.operator_index 0 = Except.error Fault.UndefinedBehaviour ∧
      (output_data.fresh.add_call scenario_call).operator_index 0 =
        Except.ok scenario_call.record ∧
      (output_data.fresh.add_call scenario_call).operator_index 1 =
        Except.error Fault.UndefinedBehaviour :=
  ⟨(C5_unchecked_read output_data.fresh 0 (by decide)).1,
    operator_index_lt (output_data.fresh.add_call scenario_call) 0 (by decide),
    (C5_unchecked_read (output_data.fresh.add_call scenario_call) 1 (by decide)).1⟩

/-! ## C6: in-range access -/

/-- C6: for every log and every index `i` with `0 <= i < size()`, the index is
below the number of stored records, so the indexed read takes its defined
branch, and the record it returns is the `i`-th element of `data()`. -/
theorem C6_in_range_read (d : output_data) (i : Nat) (h : (i : Int) < d.size) :
    ∃ hi : i < d.data.length,
      d.operator_index i = Except.ok (d.data.get ⟨i, hi⟩) := by
  have hle := size_t_to_int_le d.data_.length
  have hi : i < d.data_.length := by
    unfold output_data.size at h
    omega
  exact ⟨hi, operator_index_lt d i hi⟩

/-- C6 on the log holding the scenario record, at index 0. -/
theorem C6_in_range_read_witness :
    (output_data.fresh.add_call scenario_call).operator_index 0 =
      Except.ok scenario_call.record := by
  obtain ⟨_, h⟩ := C6_in_range_read (output_data.fresh.add_call scenario_call) 0 (by decide)
  exact h

/-! ## C7: the log is append-only -/

/-- C7, as stated, fails: the log of `2^31 - 1` records is produced from a
fresh one by public operations, and one more `add_slice` takes `size()` from
`2^31 - 1` down to `-2^31`.  Besides, one public operation has no defined
outcome at all: the indexed read past the end, as at index 0 of a fresh log. -/
theorem C7_append_only_counterexample :
    (output_data.fresh.run (List.replicate 2147483647 scenario_call.op) =
          Except.ok full_log ∧
        full_log.call scenario_call.op =
          Except.ok (Ret.unit, full_log.add_call scenario_call) ∧
        (full_log.add_call scenario_call).size < full_log.size) ∧
      output_data.fresh.call (Op.index 0) = Except.error Fault.UndefinedBehaviour := by
  refine ⟨⟨?_, rfl, ?_⟩, rfl⟩
  · rw [← List.map_replicate, run_add_calls]
    rfl
  · rw [full_log_add_size, full_log_size]
    norm_num

/-- C7, amended: for every log reachable from a fresh one by public operations,
every public operation with a defined outcome (all of them except an indexed
read past the end) leaves the stored sequence as a prefix of the sequence
afterwards, and so does every further run of operations: every stored record
is read back unchanged, the number of stored records never decreases, and
`size()` does not decrease as long as the log afterwards holds fewer than
`2^31` records. -/
theorem C7_append_only (d : output_data) (hd : Reachable d) :
    (∀ op : Op, (∃ r d', d.call op = Except.ok (r, d')) ∨
        ∃ i, op = Op.index i ∧ d.data.length ≤ i) ∧
      (∀ (op : Op) (r : Ret) (d' : output_data), d.call op = Except.ok (r, d') →
        d.data <+: d'.data) ∧
      (∀ (ops : List Op) (d' : output_data), d.run ops = Except.ok d' →
        d.data <+: d'.data ∧
        (∀ i : Nat, i < d.data.length → d'.operator_index i = d.operator_index i) ∧
        d.data.length ≤ d'.data.length ∧
        (d'.data.length < 2147483648 → d.size ≤ d'.size)) := by
  obtain ⟨_, _⟩ := hd
  refine ⟨call_defined d, call_keeps_stored d, ?_⟩
  intro ops d' h
  have hp : d.data_ <+: d'.data_ := run_keeps_stored ops d d' h
  have hl : d.data_.length ≤ d'.data_.length := hp.length_le
  refine ⟨hp, ?_, hl, fun hb => size_mono_of_small _ _ hl hb⟩
  intro i hi
  have hi0 : i < d.data_.length := hi
  rw [operator_index_lt d' i (Nat.lt_of_lt_of_le hi0 hl), operator_index_lt d i hi0]
  congr 1
  obtain ⟨tl, htl⟩ := hp
  simp [← htl, List.getElem_append_left, hi0]

/-- C7, amended, on a run from the log holding the scenario record: a size
query, an append, a read and a view leave that record first, and `size()` goes
from 1 to 2. -/
theorem C7_append_only_witness :
    (output_data.fresh.add_call scenario_call).data <+:
        ((output_data.fresh.add_call scenario_call).add_call (call_at 0 1)).data ∧
      (output_data.fresh.add_call scenario_call).size ≤
        ((output_data.fresh.add_call scenario_call).add_call (call_at 0 1)).size :=
  have h := (C7_append_only (output_data.fresh.add_call scenario_call)
      ⟨[scenario_call.op], rfl⟩).2.2
    [Op.size, (call_at 0 1).op, Op.index 0, Op.data]
    ((output_data.fresh.add_call scenario_call).add_call (call_at 0 1)) rfl
  ⟨h.1, h.2.2.2 (by decide)⟩

/-! ## C8: reads leave the log unchanged -/

/-- C8: for every log and every index `i < size()`, the calls `size()`,
`data()` and `operator[](i)` hand back the log with the stored sequence as it
was; the read returns the stored record, a second read right after it, or after
any other reads, returns the same record, and when the caller changes the
record it was given by any `g`, the next read at `i` still returns the stored
record. -/
theorem C8_reads_frame (d : output_data) (i : Nat) (h : (i : Int) < d.size)
    (g : output_entry → output_entry) :
    d.call Op.size = Except.ok (Ret.count d.size, d) ∧
      d.call Op.data = Except.ok (Ret.view d.data, d) ∧
      ∃ hi : i < d.data.length,
        d.call (Op.index i) = Except.ok (Ret.entry (d.data.get ⟨i, hi⟩), d) ∧
        d.run [Op.size, Op.data, Op.index i, Op.index i] = Except.ok d ∧
        read_modify_read d i id =
          Except.ok (Ret.entry (d.data.get ⟨i, hi⟩), Ret.entry (d.data.get ⟨i, hi⟩), d) ∧
        read_modify_read d i g =
          Except.ok (Ret.entry (g (d.data.get ⟨i, hi⟩)), Ret.entry (d.data.get ⟨i, hi⟩), d) := by
  have hle := size_t_to_int_le d.data_.length
  have hi : i < d.data_.length := by
    unfold output_data.size at h
    omega
  have hc := call_index_lt d i hi
  have hr : ∀ k : output_entry → output_entry, read_modify_read d i k =
      Except.ok (Ret.entry (k (d.data_.get ⟨i, hi⟩)), Ret.entry (d.data_.get ⟨i, hi⟩), d) := by
    intro k
    simp only [read_modify_read, hc, caller_change]
  refine ⟨rfl, rfl, hi, hc, ?_, hr id, hr g⟩
  simp only [output_data.run, output_data.call, operator_index_lt d i hi]

/-- C8 on the log holding the scenario record, index 0, with a caller that
overwrites its copy by the record of another call: the second read still
returns the scenario record and the log is as it was. -/
theorem C8_reads_frame_witness :
    read_modify_read (output_data.fresh.add_call scenario_call) 0
        (fun _ => (call_at 1 0).record) =
      Except.ok (Ret.entry (call_at 1 0).record, Ret.entry scenario_call.record,
        output_data.fresh.add_call scenario_call) := by
  obtain ⟨_, _, _, _, _, _, h⟩ :=
    C8_reads_frame (output_data.fresh.add_call scenario_call) 0 (by decide)
      (fun _ => (call_at 1 0).record)
  exact h

/-! ## C9: the copy of a record -/

/-- C9: for every record built by the eight-argument constructor, the copy
constructor yields a record with each of the eight fields equal to the same
field of the original, hence to the constructor argument it was built from; the
copy is the original. -/
theorem C9_copy_identity (r : Int) (time : Nat) (f f_m f_f : Float) (n n_m n_f : Nat) :
    (output_entry.copy (output_entry.ctor r time f f_m f_f n n_m n_f)).replicate =
        (output_entry.ctor r time f f_m f_f n n_m n_f).replicate ∧
      (output_entry.copy (output_entry.ctor r time f f_m f_f n n_m n_f)).t =
        (output_entry.ctor r time f f_m f_f n n_m n_f).t ∧
      (output_entry.copy (output_entry.ctor r time f f_m f_f n n_m n_f)).frequency =
        (output_entry.ctor r time f f_m f_f n n_m n_f).frequency ∧
      (output_entry.copy (output_entry.ctor r time f f_m f_f n n_m n_f)).frequency_males =
        (output_entry.ctor r time f f_m f_f n n_m n_f).frequency_males ∧
      (output_entry.copy (output_entry.ctor r time f f_m f_f n n_m n_f)).frequency_females =
        (output_entry.ctor r time f f_m f_f n n_m n_f).frequency_females ∧
      (output_entry.copy (output_entry.ctor r time f f_m f_f n n_m n_f)).pop_size =
        (output_entry.ctor r time f f_m f_f n n_m n_f).pop_size ∧
      (output_entry.copy (output_entry.ctor r time f f_m f_f n n_m n_f)).num_males =
        (output_entry.ctor r time f f_m f_f n n_m n_f).num_males ∧
      (output_entry.copy (output_entry.ctor r time f f_m f_f n n_m n_f)).num_females =
        (output_entry.ctor r time f f_m f_f n n_m n_f).num_females ∧
      output_entry.copy (output_entry.ctor r time f f_m f_f n n_m n_f) =
        { replicate := r, t := time, frequency := f, frequency_males := f_m,
          frequency_females := f_f, pop_size := n, num_males := n_m, num_females := n_f } :=
  ⟨rfl, rfl, rfl, rfl, rfl, rfl, rfl, rfl, rfl⟩

/-! ## C10: no validation -/

/-- C10, as stated, fails in its size clause: on the log of `2^31 - 1` records,
`add_slice` with a negative replicate id, frequencies outside `[0, 1]` and sex
counts that do not add up stores the record unchanged, and `size()` goes from
`2^31 - 1` to `-2^31` instead of growing by one. -/
theorem C10_no_validation_counterexample :
    (full_log.add_call invalid_call).data = full_log.data ++ [invalid_call.record] ∧
      full_log.size = 2147483647 ∧
      (full_log.add_call invalid_call).size = -2147483648 ∧
      (full_log.add_call invalid_call).size ≠ full_log.size + 1 := by
  refine ⟨?_, full_log_size, full_log_add_size invalid_call, ?_⟩
  · rw [data_eq, data_eq, add_call_data]
  · rw [full_log_add_size, full_log_size]
    norm_num

/-- C10, amended: for every argument tuple, with no condition on the values,
the eight-argument constructor returns the record holding exactly the given
values, and `add_slice` on any log stores that record as the new last element
with no value altered; the number of stored records grows by one, and the value
of `size()` grows by one when the log held fewer than `2^31 - 1` records.
Both are total functions: neither has a failing branch. -/
theorem C10_no_validation (d : output_data) (r : Int) (t : Nat) (f : Fin 3 → Float)
    (n n_m n_f : Nat) :
    (output_entry.ctor r t (f 0) (f 1) (f 2) n n_m n_f).replicate = r ∧
      (output_entry.ctor r t (f 0) (f 1) (f 2) n n_m n_f).t = t ∧
      (output_entry.ctor r t (f 0) (f 1) (f 2) n n_m n_f).frequency = f 0 ∧
      (output_entry.ctor r t (f 0) (f 1) (f 2) n n_m n_f).frequency_males = f 1 ∧
      (output_entry.ctor r t (f 0) (f 1) (f 2) n n_m n_f).frequency_females = f 2 ∧
      (output_entry.ctor r t (f 0) (f 1) (f 2) n n_m n_f).pop_size = n ∧
      (output_entry.ctor r t (f 0) (f 1) (f 2) n n_m n_f).num_males = n_m ∧
      (output_entry.ctor r t (f 0) (f 1) (f 2) n n_m n_f).num_females = n_f ∧
      (d.add_slice r t f n n_m n_f).data =
        d.data ++ [output_entry.ctor r t (f 0) (f 1) (f 2) n n_m n_f] ∧
      (d.add_slice r t f n n_m n_f).data.length = d.data.length + 1 ∧
      (d.data.length + 1 < 2147483648 →
        (d.add_slice r t f n n_m n_f).size = d.size + 1) := by
  have hdata := add_slice_data d r t f n n_m n_f
  have hlen : (d.add_slice r t f n n_m n_f).data_.length = d.data_.length + 1 := by
    rw [hdata]
    simp
  refine ⟨rfl, rfl, rfl, rfl, rfl, rfl, rfl, rfl, hdata, hlen, ?_⟩
  intro hb
  have hb0 : d.data_.length + 1 < 2147483648 := hb
  rw [output_data.size, output_data.size, hlen, size_t_to_int_small _ hb0,
    size_t_to_int_small _ (by omega)]
  push_cast
  rfl

/-- C10, amended, on a fresh log with the invalid arguments: the record is
stored with the values as given and `size()` goes from 0 to 1. -/
theorem C10_no_validation_witness :
    (output_data.fresh.add_slice (-7) 0 ![-1.5, 2.0, 7.25] 10 9 8).data =
        [output_entry.ctor (-7) 0 (-1.5) 2.0 7.25 10 9 8] ∧
      (output_data.fresh.add_slice (-7) 0 ![-1.5, 2.0, 7.25] 10 9 8).size = 1 :=
  have h := C10_no_validation output_data.fresh (-7) 0 ![-1.5, 2.0, 7.25] 10 9 8
  ⟨h.2.2.2.2.2.2.2.2.1, h.2.2.2.2.2.2.2.2.2.2 (by decide)⟩

/-! ## C11: the value of `size()` -/

/-- C11, as stated, fails: the log of `2^31` records has `2^31` elements in
`data()`, and `size()` returns `-2^31`, which is negative and is not the
number of elements; the conversion to `int` changed the value. -/
theorem C11_size_value_counterexample :
    (full_log.add_call (call_at 0 0)).data.length = 2147483648 ∧
      (full_log.add_call (call_at 0 0)).size = -2147483648 ∧
      (full_log.add_call (call_at 0 0)).size < 0 ∧
      (full_log.add_call (call_at 0 0)).size ≠
        ((full_log.add_call (call_at 0 0)).data.length : Int) ∧
      size_t_to_int 2147483648 ≠ 2147483648 := by
  have hl := full_log_add_length (call_at 0 0)
  have hs := full_log_add_size (call_at 0 0)
  refine ⟨?_, hs, ?_, ?_, ?_⟩
  · rw [data_eq, hl]
  · rw [hs]
    norm_num
  · rw [hs, data_eq, hl]
    norm_num
  · unfold size_t_to_int
    norm_num

/-- C11, amended: for every log that holds fewer than `2^31` records, the
`int` returned by `size()` is `>= 0` and equals the number of elements of
`data()`; on such a count the conversion from `size_t` to `int` does not change
the value. -/
theorem C11_size_value (d : output_data) (h : d.data.length < 2147483648) :
    0 ≤ d.size ∧
      d.size = (d.data.length : Int) ∧
      size_t_to_int d.data.length = (d.data.length : Int) := by
  have h0 : d.data_.length < 2147483648 := h
  have hc : size_t_to_int d.data_.length = (d.data_.length : Int) :=
    size_t_to_int_small _ h0
  rw [data_eq, output_data.size, hc]
  exact ⟨Int.ofNat_nonneg _, rfl, rfl⟩

/-- C11, amended, on the log of the three calls `(0,0)`, `(0,1)`, `(1,0)`:
`size()` is 3, the number of elements of `data()`. -/
theorem C11_size_value_witness :
    0 ≤ (output_data.fresh.add_calls [call_at 0 0, call_at 0 1, call_at 1 0]).size ∧
      (output_data.fresh.add_calls [call_at 0 0, call_at 0 1, call_at 1 0]).size = 3 ∧
      (output_data.fresh.add_calls [call_at 0 0, call_at 0 1, call_at 1 0]).data.length = 3 :=
  have h := C11_size_value
    (output_data.fresh.add_calls [call_at 0 0, call_at 0 1, call_at 1 0]) (by decide)
  ⟨h.1, h.2.1, rfl⟩

end SimRestore
